import Mathlib

/-!
Verification of the authenticated file-ingestion subsystem of the
orphan-database backend (`src/backend/src/server.js`).

The subsystem consists of:
* `fileFilter` (server.js lines 194-221): session check + filename-extension
  allow-list implemented by the JavaScript regex
  `/.*\.(gif|jpe?g|bmp|png|pdf|docx|doc)$/gim`;
* the multer `diskStorage` options (lines 172-191): MIME-type based
  destination directory and the generated file name;
* the `POST /img/` and `POST /document/` handlers (lines 238-264):
  reference URL derivation via `url.pathToFileURL(path)` followed by
  `.slice(url.indexOf(token))`, and the "not attached" sentinel bodies.

Everything is embedded shallowly over `String` / `List Char`; the pieces of
runtime state a request touches (session identity, the multipart file, the
set of files written to the storage directories, the HTTP response) are
explicit values.
-/

namespace OrphanUpload

/-! ### The extension allow-list check of `fileFilter`

`String(file.originalname).match(/.*\.(gif|jpe?g|bmp|png|pdf|docx|doc)$/gim)`
is truthy exactly when the regex matches somewhere in the filename.  With the
`m` flag, `$` matches at the end of the input and immediately before any
ECMAScript LineTerminator (LF, CR, U+2028, U+2029); `.` matches no
LineTerminator, `.*` may be empty, and the `i` flag makes the literal
extension letters case-insensitive (ASCII case folding).  Hence a match
exists iff the input can be split as `take i ++ drop i` where position `i`
is at end-of-input or right before a LineTerminator, and `take i` ends
(after ASCII lowercasing) with a dot followed by one of the alternatives
(`jpe?g` contributing both `jpg` and `jpeg`).  `regexAccepts` below is that
positional characterization, written directly over the split positions. -/

/-- ECMAScript LineTerminator characters: LF, CR, U+2028, U+2029. -/
def lineTerminator (c : Char) : Bool :=
  (c == '\n') || (c == '\r') || (c == Char.ofNat 0x2028) || (c == Char.ofNat 0x2029)

/-- The alternatives of the extension group of the regex, with `jpe?g`
expanded to its two forms. -/
def allowedExtensionNames : List String :=
  ["gif", "jpg", "jpeg", "bmp", "png", "pdf", "docx", "doc"]

def allowedExtensions : List (List Char) :=
  allowedExtensionNames.map String.data

/-- Does `u` end, after ASCII lowercasing, with a dot followed by one of the
allowed extensions?  This is the condition the regex checks at a fixed
end position. -/
def endsAllowed (u : List Char) : Bool :=
  allowedExtensions.any fun e => List.isSuffixOf ('.' :: e) (u.map Char.toLower)

/-- Position `i` of `s` is a valid `$` position for a multiline regex:
end of input, or immediately before a LineTerminator. -/
def eolAt (s : List Char) (i : Nat) : Bool :=
  match s.drop i with
  | [] => true
  | c :: _ => lineTerminator c

/-- Match-existence semantics of
`/.*\.(gif|jpe?g|bmp|png|pdf|docx|doc)$/gim` on `s`. -/
def regexAccepts (s : List Char) : Bool :=
  (List.range (s.length + 1)).any fun i => eolAt s i && endsAllowed (s.take i)

/-- The extension check of `fileFilter` (server.js line 210):
`String(file.originalname).match(/.*\.(gif|jpe?g|bmp|png|pdf|docx|doc)$/gim)`
is truthy. -/
def extMatch (originalname : String) : Bool :=
  regexAccepts originalname.data

/-- Split a character list at ECMAScript LineTerminators (all four of them);
a list with no terminator is one single line. -/
def jsLines : List Char → List (List Char)
  | [] => [[]]
  | c :: rest =>
    match jsLines rest with
    | [] => [[]]
    | l :: ls => if lineTerminator c then [] :: l :: ls else (c :: l) :: ls

/-- Split a character list at `'\n'` only (the literal reading of
"newline-delimited"). -/
def newlineLines : List Char → List (List Char)
  | [] => [[]]
  | c :: rest =>
    match newlineLines rest with
    | [] => [[]]
    | l :: ls => if c == '\n' then [] :: l :: ls else (c :: l) :: ls

/-- Spec-side notion of the extension of a filename: the text after the last
dot (lowercased), or `none` when the filename has no dot. -/
def lastDotExtension (s : String) : Option String :=
  if s.data.contains '.' then
    some ⟨((s.data.map Char.toLower).reverse.takeWhile (fun c => !(c == '.'))).reverse⟩
  else none

/-! ### The Upload Gatekeeper: `fileFilter` (server.js lines 194-221) -/

/-- One multipart file as multer hands it to `fileFilter` and to the storage
engine: field name, client-supplied original filename, declared MIME type. -/
structure MulterFile where
  fieldname : String
  originalname : String
  mimetype : String
deriving DecidableEq

/-- Outcome of `fileFilter`: `cb(null, true)`, `cb(null, false)` (silent
skip), or `cb(error)` with a catchable error. -/
inductive FilterDecision where
  | accept
  | skip
  | error (msg : String)
deriving DecidableEq

/-- Modelled from the spec: `getUser` lives in `./utils`, which is not part
of the sources; §4.1 gives its contract `authenticate(request) -> identity |
absent`, never throwing for a missing session.  The requesting session's
identity is therefore carried as an `Option`: `some` iff
`getUser(req).userId` is truthy. -/
abbrev UserId := Nat

/-- The Upload Gatekeeper, server.js lines 194-221:

```
if (getUser(req).userId) {
  if (String(file.originalname).match(/.*\.(gif|jpe?g|bmp|png|pdf|docx|doc)$/gim))
    cb(null, true);
  else throw new UserInputError('Unsupported file type');   // caught, cb(error)
} else cb(null, false);
```
-/
def fileFilter (userId : Option UserId) (file : MulterFile) : FilterDecision :=
  match userId with
  | some _ =>
    if extMatch file.originalname then FilterDecision.accept
    else FilterDecision.error "Unsupported file type"
  | none => FilterDecision.skip

/-! ### The Content Classifier: `storage.destination` (server.js 172-184) -/

/-- JavaScript `String.prototype.startsWith`, on the underlying characters. -/
def strStartsWith (s pre : String) : Bool :=
  pre.data.isPrefixOf s.data

/-- `storage.destination`: the target directory by declared MIME type, or
`none` for `cb(null, false)` (no bucket; multer's disk storage then fails on
`path.join(false, name)` and nothing is written). -/
def destination (mimetype : String) : Option String :=
  if strStartsWith mimetype "image" then some "./public/img/"
  else if strStartsWith mimetype
        "application/vnd.openxmlformats-officedocument.wordprocessingml.document"
      || strStartsWith mimetype "application/msword"
      || strStartsWith mimetype "application/pdf" then
    some "./public/document/"
  else none

/-- `storage.filename` (server.js 185-191):
    `` `${file.fieldname}-${new Date().getTime()}-${file.originalname}` ``. -/
def multerFilename (fieldname : String) (nowMs : Nat) (originalname : String) : String :=
  fieldname ++ "-" ++ toString nowMs ++ "-" ++ originalname

/-- Node's `path.join(destination, filename)` for the two destination
directories used here: the leading `./` is stripped and the name appended
(the general `path.join` also normalizes `..` segments, which these
destination constants never contain). -/
def joinPath (dest name : String) : String :=
  (if "./".data.isPrefixOf dest.data then (⟨dest.data.drop 2⟩ : String) else dest) ++ name

/-! ### The Reference Resolver (server.js 244-245 and 260-261)

`url.pathToFileURL(req.file.path)` turns the stored path into a
`file://` URL (resolving the relative multer path against the process
working directory), and `.toString().slice(toString().indexOf(tok))`
keeps everything from the first occurrence of the bucket token on. -/

/-- Percent-encoding of a single character as Node's `pathToFileURL`
serializer performs it for the characters that can appear in these paths
(`%`, space, `#`, `?`, and the C0 controls used below are the cases that
matter; characters outside this set, in particular all characters of the
bucket tokens and `/`, are copied verbatim.  Non-ASCII characters would be
UTF-8 percent-encoded by Node; they are copied verbatim here, which changes
no property proved below since percent-escapes consist only of `%` and
upper-case hex digits). -/
def encodeChar (c : Char) : List Char :=
  if c == '%' then "%25".data
  else if c == ' ' then "%20".data
  else if c == '#' then "%23".data
  else if c == '?' then "%3F".data
  else if c == '\n' then "%0A".data
  else if c == '\r' then "%0D".data
  else if c == '\t' then "%09".data
  else [c]

def encodeList : List Char → List Char
  | [] => []
  | c :: rest => encodeChar c ++ encodeList rest

/-- Node's `url.pathToFileURL(p).toString()` for a normalized absolute POSIX
path `p` (on such paths `path.resolve` is the identity, so the URL is the
`file://` scheme followed by the percent-encoded path). -/
def pathToFileURLString (p : String) : String :=
  ⟨"file://".data ++ encodeList p.data⟩

/-- JavaScript `String.prototype.indexOf`: index of the first occurrence of
`pat`, or `none` for JavaScript's `-1`. -/
def firstIndexOf : List Char → List Char → Option Nat
  | [], pat => if pat.isPrefixOf [] then some 0 else none
  | c :: r, pat =>
    if pat.isPrefixOf (c :: r) then some 0
    else (firstIndexOf r pat).map (· + 1)

/-- `s.slice(s.indexOf(tok))`: everything from the first occurrence of `tok`
on; when `tok` does not occur, `indexOf` is `-1` and JavaScript's
`slice(-1)` keeps just the last character. -/
def sliceFromFirst (tok s : String) : String :=
  match firstIndexOf s.data tok.data with
  | some i => ⟨s.data.drop i⟩
  | none => ⟨s.data.drop (s.data.length - 1)⟩

/-- The Reference Resolver applied to a stored file's absolute path:
`url.pathToFileURL(path).toString().slice(...indexOf(tok))`. -/
def toReference (tok : String) (storedPath : String) : String :=
  sliceFromFirst tok (pathToFileURLString storedPath)

/-- First path component of a reference: the characters before the first
`/`. -/
def firstPathComponent (s : String) : String :=
  ⟨s.data.takeWhile (fun c => !(c == '/'))⟩

/-- Decidable substring check: does `pat` occur somewhere in `s`? -/
def containsSub (pat s : List Char) : Bool :=
  (List.range (s.length + 1)).any fun i => pat.isPrefixOf (s.drop i)

/-- The part of the file URL that precedes the bucket token when the stored
path is `pfx ++ "/public/" ++ tok ++ "/" ++ name`. -/
def urlHeader (pfx : String) : List Char :=
  "file://".data ++ encodeList pfx.data ++ "/public/".data

/-! ### The HTTP endpoints (server.js 238-264) -/

/-- A file persisted by multer's disk storage: destination directory,
generated name, and `req.file.path = path.join(destination, name)`. -/
structure StoredFile where
  destDir : String
  name : String
  path : String
deriving DecidableEq

/-- What the caller observes: a body passed to `res.send`, or a
request-level error (multer aborting with the `fileFilter` error, the
unexpected-field multer error, or the `TypeError` from joining a `false`
destination). -/
inductive HttpResponse where
  | sent (body : String)
  | failed (message : String)
deriving DecidableEq

/-- Full effect of one upload request: `req.file` as the handler sees it,
the list of files written to the storage directories, and the response. -/
structure UploadOutcome where
  reqFile : Option StoredFile
  written : List StoredFile
  response : HttpResponse
deriving DecidableEq

/-- One `upload.single(field)` + handler round, shared by both endpoints.

* no file in the multipart body → handler runs with `req.file` undefined and
  sends `noneBody`;
* a file under a different field name → multer aborts with
  `LIMIT_UNEXPECTED_FILE` (multer checks the field before calling
  `fileFilter`);
* `fileFilter` skip → the stream is drained, nothing stored, handler sends
  `noneBody`;
* `fileFilter` error → multer aborts with that error;
* accepted → disk storage asks `destination` and `filename`; a `none`
  destination makes `path.join` throw (nothing written), otherwise the file
  is written and the handler sends
  `pathToFileURL(req.file.path).toString().slice(...indexOf(tok))`, the
  relative path being resolved against the working directory `cwd`. -/
def handleSingle (field tok cwd : String) (nowMs : Nat) (userId : Option UserId)
    (file : Option MulterFile) (noneBody : String) : UploadOutcome :=
  match file with
  | none => ⟨none, [], HttpResponse.sent noneBody⟩
  | some f =>
    if f.fieldname ≠ field then ⟨none, [], HttpResponse.failed "LIMIT_UNEXPECTED_FILE"⟩
    else
      match fileFilter userId f with
      | FilterDecision.skip => ⟨none, [], HttpResponse.sent noneBody⟩
      | FilterDecision.error msg => ⟨none, [], HttpResponse.failed msg⟩
      | FilterDecision.accept =>
        match destination f.mimetype with
        | none => ⟨none, [], HttpResponse.failed "TypeError"⟩
        | some d =>
          let nm := multerFilename f.fieldname nowMs f.originalname
          let rel := joinPath d nm
          let sf : StoredFile := ⟨d, nm, rel⟩
          ⟨some sf, [sf], HttpResponse.sent (toReference tok (cwd ++ "/" ++ rel))⟩

/-- `POST /img/` with `upload.single('image')` (server.js 238-253). -/
def imgPost (cwd : String) (nowMs : Nat) (userId : Option UserId)
    (file : Option MulterFile) : UploadOutcome :=
  handleSingle "image" "img" cwd nowMs userId file "Image not attached"

/-- `POST /document/` with `upload.single('document')` (server.js 254-264). -/
def documentPost (cwd : String) (nowMs : Nat) (userId : Option UserId)
    (file : Option MulterFile) : UploadOutcome :=
  handleSingle "document" "document" cwd nowMs userId file "Document not attached"

/-! ### Bridging lemmas between executable Bool list operations and their
propositional counterparts (thin wrappers around library lemmas). -/

theorem isPrefixOf_iff {l₁ l₂ : List Char} : l₁.isPrefixOf l₂ = true ↔ l₁ <+: l₂ :=
  List.isPrefixOf_iff_prefix

theorem isSuffixOf_iff {l₁ l₂ : List Char} : l₁.isSuffixOf l₂ = true ↔ l₁ <:+ l₂ :=
  List.isSuffixOf_iff_suffix

theorem take_isPre (l : List Char) (n : Nat) : l.take n <+: l :=
  List.take_prefix n l

/-! ### C1: the two-tier failure policy of the Gatekeeper -/

/-- C1.  Two-tier failure policy of the Upload Gatekeeper: for every upload
request, `fileFilter` yields the silent skip (`cb(null, false)`, so the HTTP
layer responds as if no file were attached) exactly when the Session
Authenticator yields no identity; it raises the catchable
`Unsupported file type` error exactly when an identity is present but the
filename fails the extension allow-list; and it accepts exactly when an
identity is present and the filename passes.  The silent branch and the
error branch are therefore never interchanged. -/
theorem c1_two_tier_failure_policy (u : Option UserId) (f : MulterFile) :
    (fileFilter u f = FilterDecision.skip ↔ u = none) ∧
    (fileFilter u f = FilterDecision.error "Unsupported file type" ↔
      u ≠ none ∧ extMatch f.originalname = false) ∧
    (fileFilter u f = FilterDecision.accept ↔
      u ≠ none ∧ extMatch f.originalname = true) := by
  cases u with
  | none => simp [fileFilter]
  | some a =>
    by_cases h : extMatch f.originalname = true
    · simp [fileFilter, h]
    · simp only [Bool.not_eq_true] at h
      simp [fileFilter, h]

/-! ### C3 / C4: the Content Classifier (`storage.destination`) -/

/-- C3.  Content classification by declared MIME type, first match wins: if
the declared MIME type starts with `image` the target bucket is the image
directory `./public/img/`; otherwise, if it starts with the OpenXML
word-processing type, the legacy Word type, or the PDF type, the target
bucket is the document directory `./public/document/`. -/
theorem c3_destination_classification (m : String) :
    (strStartsWith m "image" = true → destination m = some "./public/img/") ∧
    (strStartsWith m "image" = false →
      (strStartsWith m
          "application/vnd.openxmlformats-officedocument.wordprocessingml.document"
        || strStartsWith m "application/msword"
        || strStartsWith m "application/pdf") = true →
      destination m = some "./public/document/") := by
  constructor
  · intro h
    simp [destination, h]
  · intro h1 h2
    simp [destination, h1, h2]

theorem c3_destination_classification_witness :
    destination "image/png" = some "./public/img/" ∧
    destination "application/pdf" = some "./public/document/" :=
  ⟨(c3_destination_classification "image/png").1 (by decide),
   (c3_destination_classification "application/pdf").2 (by decide) (by decide)⟩

/-- Helper for C4: whenever `destination` assigns no bucket, neither
endpoint stores anything, whatever the admission path did. -/
theorem handleSingle_no_bucket (field tok cwd : String) (nowMs : Nat)
    (u : Option UserId) (f : MulterFile) (nb : String)
    (hdest : destination f.mimetype = none) :
    (handleSingle field tok cwd nowMs u (some f) nb).written = [] ∧
    (handleSingle field tok cwd nowMs u (some f) nb).reqFile = none := by
  by_cases hf : f.fieldname = field
  · cases hd : fileFilter u f <;> simp [handleSingle, hf, hd, hdest]
  · simp [handleSingle, hf]

/-- C4.  For every upload whose declared MIME type matches neither the
`image` MIME prefix nor any of the three document types, classification
yields no bucket, and — regardless of the filename — neither endpoint
writes a file to either storage directory. -/
theorem c4_unsupported_mime_rejected (cwd : String) (nowMs : Nat)
    (u : Option UserId) (f : MulterFile)
    (h1 : strStartsWith f.mimetype "image" = false)
    (h2 : (strStartsWith f.mimetype
            "application/vnd.openxmlformats-officedocument.wordprocessingml.document"
          || strStartsWith f.mimetype "application/msword"
          || strStartsWith f.mimetype "application/pdf") = false) :
    destination f.mimetype = none ∧
    (imgPost cwd nowMs u (some f)).written = [] ∧
    (imgPost cwd nowMs u (some f)).reqFile = none ∧
    (documentPost cwd nowMs u (some f)).written = [] ∧
    (documentPost cwd nowMs u (some f)).reqFile = none := by
  have hdest : destination f.mimetype = none := by
    simp [destination, h1, h2]
  have hi := handleSingle_no_bucket "image" "img" cwd nowMs u f "Image not attached" hdest
  have hd := handleSingle_no_bucket "document" "document" cwd nowMs u f
    "Document not attached" hdest
  exact ⟨hdest, hi.1, hi.2, hd.1, hd.2⟩

theorem c4_unsupported_mime_rejected_witness :
    strStartsWith "text/plain" "image" = false ∧
    destination "text/plain" = none ∧
    (imgPost "/srv/app" 7 (some 1) (some ⟨"image", "notes.doc", "text/plain"⟩)).written
      = [] :=
  ⟨by decide,
   (c4_unsupported_mime_rejected "/srv/app" 7 (some 1)
     ⟨"image", "notes.doc", "text/plain"⟩ (by decide) (by decide)).1,
   (c4_unsupported_mime_rejected "/srv/app" 7 (some 1)
     ⟨"image", "notes.doc", "text/plain"⟩ (by decide) (by decide)).2.1⟩

/-! ### C9: admission is independent of the declared MIME type -/

/-- C9.  The Gatekeeper's accept/skip/error decision is independent of the
declared MIME type: two upload requests that agree on session identity,
field name and original filename, and differ only in declared MIME type,
receive the same `fileFilter` outcome. -/
theorem c9_admission_mimetype_independent (u : Option UserId) (f g : MulterFile)
    (hfield : f.fieldname = g.fieldname) (hname : f.originalname = g.originalname) :
    fileFilter u f = fileFilter u g := by
  cases u <;> simp [fileFilter, hname]

theorem c9_admission_mimetype_independent_witness :
    (⟨"image", "cat.png", "image/png"⟩ : MulterFile).originalname
      = (⟨"image", "cat.png", "application/x-evil"⟩ : MulterFile).originalname ∧
    fileFilter (some 1) ⟨"image", "cat.png", "image/png"⟩
      = fileFilter (some 1) ⟨"image", "cat.png", "application/x-evil"⟩ :=
  ⟨rfl, c9_admission_mimetype_independent (some 1) _ _ rfl rfl⟩

/-! ### C2: the multiline flag defeats the extension allow-list -/

/-- C2.  Evaluation of the Gatekeeper at the failing input: the
authenticated upload of `safe.png\nevil.exe` is accepted by `fileFilter`
(the `m` flag lets the `safe.png` line match), although the filename's
extension is `exe`, which is outside the allow-list — so the claimed
`Unsupported file type` denial does not happen. -/
theorem c2_multiline_bypass_evaluation :
    fileFilter (some 1) ⟨"image", "safe.png\nevil.exe", "image/png"⟩
      = FilterDecision.accept ∧
    lastDotExtension "safe.png\nevil.exe" = some "exe" ∧
    "exe" ∉ allowedExtensionNames := by
  refine ⟨by decide, by decide, by decide⟩

/-! ### C5: unauthenticated requests are indistinguishable from empty ones -/

/-- C5.  For every unauthenticated `POST /img/` request that attaches a
valid image file (correct field, image MIME type, allow-listed extension),
no file is written to either storage directory and the response body is the
literal sentinel `Image not attached`. -/
theorem c5_unauthenticated_img_request (cwd : String) (nowMs : Nat) (f : MulterFile)
    (hfield : f.fieldname = "image")
    (hmime : strStartsWith f.mimetype "image" = true)
    (hext : extMatch f.originalname = true) :
    (imgPost cwd nowMs none (some f)).written = [] ∧
    (imgPost cwd nowMs none (some f)).response
      = HttpResponse.sent "Image not attached" := by
  constructor <;> simp [imgPost, handleSingle, fileFilter, hfield]

theorem c5_unauthenticated_img_request_witness :
    extMatch "cat.png" = true ∧
    (imgPost "/srv/app" 7 none (some ⟨"image", "cat.png", "image/png"⟩)).written = [] ∧
    (imgPost "/srv/app" 7 none (some ⟨"image", "cat.png", "image/png"⟩)).response
      = HttpResponse.sent "Image not attached" :=
  ⟨by decide,
   (c5_unauthenticated_img_request "/srv/app" 7 ⟨"image", "cat.png", "image/png"⟩
     rfl (by decide) (by decide)).1,
   (c5_unauthenticated_img_request "/srv/app" 7 ⟨"image", "cat.png", "image/png"⟩
     rfl (by decide) (by decide)).2⟩

/-! ### C10: the document endpoint's sentinel -/

/-- C10.  For every `POST /document/` request in which no file is processed
— none attached, or the upload silently skipped because the session carries
no identity — the response body is the literal `Document not attached`, a
sentinel distinct from the `/img/` endpoint's `Image not attached`. -/
theorem c10_document_not_attached (cwd : String) (nowMs : Nat) (u : Option UserId)
    (file : Option MulterFile)
    (h : file = none ∨ ∃ f, file = some f ∧ f.fieldname = "document" ∧ u = none) :
    (documentPost cwd nowMs u file).response
      = HttpResponse.sent "Document not attached" ∧
    ("Document not attached" : String) ≠ "Image not attached" := by
  constructor
  · rcases h with rfl | ⟨f, rfl, hf, rfl⟩
    · simp [documentPost, handleSingle]
    · simp [documentPost, handleSingle, fileFilter, hf]
  · decide

theorem c10_document_not_attached_witness :
    (documentPost "/srv/app" 7 (some 1) none).response
      = HttpResponse.sent "Document not attached" :=
  (c10_document_not_attached "/srv/app" 7 (some 1) none (Or.inl rfl)).1

/-! ### C6: the generated file name -/

/-- Helper for C6: whatever file the handler sees was named by
`storage.filename`. -/
theorem handleSingle_reqFile_name (field tok cwd : String) (nowMs : Nat)
    (u : Option UserId) (f : MulterFile) (nb : String) (sf : StoredFile)
    (h : (handleSingle field tok cwd nowMs u (some f) nb).reqFile = some sf) :
    sf.name = f.fieldname ++ "-" ++ toString nowMs ++ "-" ++ f.originalname := by
  by_cases hf : f.fieldname = field
  · cases hd : fileFilter u f with
    | accept =>
      cases hdest : destination f.mimetype with
      | none => simp [handleSingle, hf, hd, hdest] at h
      | some d =>
        simp [handleSingle, hf, hd, hdest] at h
        rw [← h]
        simp [multerFilename, hf]
    | skip => simp [handleSingle, hf, hd] at h
    | error msg => simp [handleSingle, hf, hd] at h
  · simp [handleSingle, hf] at h

/-- C6.  For every accepted upload on either endpoint, the generated file
name is the concatenation field-name, `-`, upload-time epoch milliseconds,
`-`, original filename, the original filename taken verbatim. -/
theorem c6_generated_filename (cwd : String) (nowMs : Nat) (u : Option UserId)
    (f : MulterFile) (sf : StoredFile)
    (h : (imgPost cwd nowMs u (some f)).reqFile = some sf ∨
         (documentPost cwd nowMs u (some f)).reqFile = some sf) :
    sf.name = f.fieldname ++ "-" ++ toString nowMs ++ "-" ++ f.originalname := by
  rcases h with h | h
  · exact handleSingle_reqFile_name "image" "img" cwd nowMs u f "Image not attached" sf h
  · exact handleSingle_reqFile_name "document" "document" cwd nowMs u f
      "Document not attached" sf h

theorem c6_generated_filename_witness :
    (imgPost "/srv/app" 7 (some 1)
        (some ⟨"image", "cat.png", "image/png"⟩)).reqFile
      = some ⟨"./public/img/", "image-7-cat.png", "public/img/image-7-cat.png"⟩ ∧
    (⟨"./public/img/", "image-7-cat.png", "public/img/image-7-cat.png"⟩
        : StoredFile).name
      = "image" ++ "-" ++ toString 7 ++ "-" ++ "cat.png" :=
  ⟨by decide,
   c6_generated_filename "/srv/app" 7 (some 1) ⟨"image", "cat.png", "image/png"⟩
     ⟨"./public/img/", "image-7-cat.png", "public/img/image-7-cat.png"⟩
     (Or.inl (by decide))⟩

/-! ### C8: line-splitting characterization of the extension check -/

theorem toLower_eq_self_of_term {c : Char} (h : lineTerminator c = true) :
    Char.toLower c = c := by
  simp only [lineTerminator, Bool.or_eq_true, beq_iff_eq] at h
  rcases h with ((rfl | rfl) | rfl) | rfl <;> decide

/-- A list avoiding a character `c` is a suffix of `a ++ c :: b` exactly
when it is a suffix of `b`. -/
theorem suffix_middle {p : List Char} {c : Char} (hc : c ∉ p) (a b : List Char) :
    p <:+ (a ++ c :: b) ↔ p <:+ b := by
  constructor
  · rintro ⟨q, hq⟩
    rcases List.append_eq_append_iff.mp hq with ⟨a2, _, hp⟩ | ⟨c2, _, hcb⟩
    · exact absurd (hp ▸ List.mem_append_right a2 (List.mem_cons_self c b)) hc
    · cases c2 with
      | nil =>
        rw [List.nil_append] at hcb
        exact absurd (hcb ▸ List.mem_cons_self c b) hc
      | cons d c3 =>
        rw [List.cons_append] at hcb
        injection hcb with h1 h2
        exact ⟨c3, h2.symm⟩
  · intro h
    exact h.trans ((List.suffix_cons c b).trans (List.suffix_append a (c :: b)))

theorem termfree_allowed :
    ∀ e ∈ allowedExtensions, ∀ x ∈ ('.' :: e), lineTerminator x = false := by
  decide

/-- Inserting a LineTerminator erases everything before it as far as the
extension suffix check is concerned. -/
theorem endsAllowed_append_term (u v : List Char) {c : Char}
    (hc : lineTerminator c = true) :
    endsAllowed (u ++ c :: v) = endsAllowed v := by
  have hmap : (u ++ c :: v).map Char.toLower
      = u.map Char.toLower ++ c :: v.map Char.toLower := by
    rw [List.map_append, List.map_cons, toLower_eq_self_of_term hc]
  have hnot : ∀ e ∈ allowedExtensions, c ∉ ('.' :: e) := by
    intro e he hmem
    have h2 := termfree_allowed e he c hmem
    rw [h2] at hc
    exact Bool.noConfusion hc
  rw [Bool.eq_iff_iff]
  simp only [endsAllowed, List.any_eq_true, hmap]
  constructor
  · rintro ⟨e, he, hsuf⟩
    refine ⟨e, he, ?_⟩
    rw [isSuffixOf_iff] at hsuf ⊢
    exact (suffix_middle (hnot e he) _ _).mp hsuf
  · rintro ⟨e, he, hsuf⟩
    refine ⟨e, he, ?_⟩
    rw [isSuffixOf_iff] at hsuf ⊢
    exact (suffix_middle (hnot e he) _ _).mpr hsuf

theorem jsLines_ne_nil (s : List Char) : jsLines s ≠ [] := by
  cases s with
  | nil => simp [jsLines]
  | cons c r =>
    cases h : jsLines r with
    | nil => simp [jsLines, h]
    | cons l ls =>
      by_cases ht : lineTerminator c = true <;> simp [jsLines, h, ht]

/-- Positional form of the regex check, with an accumulated current-line
context `pre`, equals the line-wise check on `jsLines`. -/
theorem regexAux (t : List Char) : ∀ pre : List Char,
    ((List.range (t.length + 1)).any fun i => eolAt t i && endsAllowed (pre ++ t.take i))
      = (endsAllowed (pre ++ (jsLines t).headI)
          || ((jsLines t).tail).any endsAllowed) := by
  induction t with
  | nil =>
    intro pre
    simp [jsLines, eolAt, List.range_succ_eq_map, List.range_zero]
  | cons c r ih =>
    intro pre
    have hstep :
        ((List.range ((c :: r).length + 1)).any fun i =>
            eolAt (c :: r) i && endsAllowed (pre ++ (c :: r).take i))
          = ((lineTerminator c && endsAllowed pre)
              || (List.range (r.length + 1)).any fun i =>
                  eolAt r i && endsAllowed ((pre ++ [c]) ++ r.take i)) := by
      rw [show (c :: r).length + 1 = r.length + 1 + 1 from rfl, List.range_succ_eq_map,
        List.any_cons, List.any_map]
      congr 1
      · simp [eolAt]
      · apply congrArg
        funext i
        show (eolAt (c :: r) (i + 1) && endsAllowed (pre ++ (c :: r).take (i + 1)))
            = (eolAt r i && endsAllowed ((pre ++ [c]) ++ r.take i))
        have h1 : eolAt (c :: r) (i + 1) = eolAt r i := rfl
        have h2 : pre ++ (c :: r).take (i + 1) = (pre ++ [c]) ++ r.take i := by
          rw [List.take_succ_cons, List.append_cons]
        rw [h1, h2]
    rw [hstep, ih (pre ++ [c])]
    rcases hjl : jsLines r with _ | ⟨l, ls⟩
    · exact absurd hjl (jsLines_ne_nil r)
    · by_cases ht : lineTerminator c = true
      · have hjc : jsLines (c :: r) = [] :: l :: ls := by
          simp [jsLines, hjl, ht]
        rw [hjc, ht, List.headI_cons, List.tail_cons, List.headI_cons,
          List.tail_cons, ← List.append_cons pre c l, endsAllowed_append_term pre l ht]
        simp [Bool.or_assoc]
      · have ht2 : lineTerminator c = false := by
          simp only [Bool.not_eq_true] at ht
          exact ht
        have hjc : jsLines (c :: r) = (c :: l) :: ls := by
          simp [jsLines, hjl, ht2]
        rw [hjc, ht2, List.headI_cons, List.tail_cons, List.headI_cons,
          List.tail_cons, ← List.append_cons pre c l]
        simp

/-- C8 (amended).  The extension allow-list check accepts an original
filename exactly when some line of it — the filename split at the
ECMAScript line terminators LF, CR, U+2028, U+2029, which is what the
regex's `m` flag keys on — ends, case-insensitively, with a dot followed by
one of gif, jpg, jpeg, bmp, png, pdf, docx, doc; so for a filename
containing an embedded line terminator, one conforming line suffices even
when the filename as a whole does not end in an allowed extension. -/
theorem c8_line_terminator_acceptance (s : String) :
    extMatch s = (jsLines s.data).any endsAllowed := by
  have h := regexAux s.data []
  simp only [List.nil_append] at h
  rcases hjl : jsLines s.data with _ | ⟨l, ls⟩
  · exact absurd hjl (jsLines_ne_nil _)
  · rw [hjl] at h
    simp only [List.headI_cons, List.tail_cons] at h
    simp only [extMatch, regexAccepts, hjl, List.any_cons]
    exact h

/-- C8 (counterexample to the claim as stated).  `a.gif\rb` contains no
newline, hence is its own single newline-delimited line, and that line does
not end in an allowed extension — yet the check accepts it, because the
multiline `$` also matches before the carriage return. -/
theorem c8_newline_counterexample :
    extMatch "a.gif\rb" = true ∧
    (newlineLines "a.gif\rb".data).any endsAllowed = false :=
  ⟨by decide, by decide⟩

/-! ### C7: the Reference Resolver -/

theorem encodeList_append (a b : List Char) :
    encodeList (a ++ b) = encodeList a ++ encodeList b := by
  induction a with
  | nil => rfl
  | cons c t ih => simp [encodeList, ih, List.append_assoc]

theorem encode_pub : encodeList ['/', 'p', 'u', 'b', 'l', 'i', 'c', '/']
    = ['/', 'p', 'u', 'b', 'l', 'i', 'c', '/'] := by decide

theorem encode_pub2 : encodeList ['p', 'u', 'b', 'l', 'i', 'c', '/']
    = ['p', 'u', 'b', 'l', 'i', 'c', '/'] := by decide

/-- `firstIndexOf` is `some 0` as soon as the pattern is a prefix. -/
theorem firstIndexOf_zero {pat s : List Char} (h : pat.isPrefixOf s = true) :
    firstIndexOf s pat = some 0 := by
  cases s <;> simp [firstIndexOf, h]

theorem encode_cons_slash (l : List Char) :
    encodeList ('/' :: l) = '/' :: encodeList l := by
  show encodeChar '/' ++ encodeList l = '/' :: encodeList l
  rw [show encodeChar '/' = ['/'] from by decide]
  rfl

/-- `firstIndexOf` finds `pat` right after a region `a` none of whose
positions starts an occurrence. -/
theorem firstIndexOf_main (pat : List Char) : ∀ (a t : List Char),
    (∀ i, i < a.length → pat.isPrefixOf ((a ++ (pat ++ t)).drop i) = false) →
    firstIndexOf (a ++ (pat ++ t)) pat = some a.length := by
  intro a
  induction a with
  | nil =>
    intro t _
    have hpre : pat.isPrefixOf (pat ++ t) = true := isPrefixOf_iff.mpr ⟨t, rfl⟩
    simpa using firstIndexOf_zero hpre
  | cons c a2 ih =>
    intro t h
    have h0 : pat.isPrefixOf (c :: (a2 ++ (pat ++ t))) = false := by
      have h1 := h 0 (by simp)
      simpa using h1
    have hrec := ih t (fun i hi => by
      have h2 := h (i + 1) (by simpa using Nat.succ_lt_succ hi)
      simpa using h2)
    rw [List.cons_append]
    rw [show firstIndexOf (c :: (a2 ++ (pat ++ t))) pat
        = (firstIndexOf (a2 ++ (pat ++ t)) pat).map (· + 1) from by
      simp [firstIndexOf, h0]]
    rw [hrec]
    simp

/-- If `pat` avoids `/`, does not occur in the slash-terminated header, then
no occurrence of `pat` in `header ++ pat ++ t` starts inside the header:
an occurrence inside the header proper contradicts non-occurrence, and one
straddling the boundary would have to contain the header's final `/`. -/
theorem no_early_occurrence (pat h0 t : List Char)
    (hslash : '/' ∉ pat)
    (hni : containsSub pat (h0 ++ ['/']) = false) :
    ∀ i, i < (h0 ++ ['/']).length →
      pat.isPrefixOf (((h0 ++ ['/']) ++ (pat ++ t)).drop i) = false := by
  intro i hi
  by_contra hcon
  have hpre2 : pat.isPrefixOf (((h0 ++ ['/']) ++ (pat ++ t)).drop i) = true := by
    simpa using hcon
  have hpre : pat <+: (((h0 ++ ['/']) ++ (pat ++ t)).drop i) := isPrefixOf_iff.mp hpre2
  have hdrop : ((h0 ++ ['/']) ++ (pat ++ t)).drop i
      = (h0 ++ ['/']).drop i ++ (pat ++ t) := by
    rw [List.drop_append_eq_append_drop]
    rw [Nat.sub_eq_zero_of_le (le_of_lt hi), List.drop_zero]
  rw [hdrop] at hpre
  have hnocc : ∀ j, j < (h0 ++ ['/']).length + 1 →
      pat.isPrefixOf ((h0 ++ ['/']).drop j) = false := by
    intro j hj
    have hall := List.any_eq_false.mp hni j (List.mem_range.mpr hj)
    cases hb : pat.isPrefixOf ((h0 ++ ['/']).drop j) with
    | false => rfl
    | true => exact absurd hb hall
  by_cases hlen : pat.length ≤ ((h0 ++ ['/']).drop i).length
  · have hptake : pat <+: (h0 ++ ['/']).drop i := by
      have heq := List.prefix_iff_eq_take.mp hpre
      rw [List.take_append_eq_append_take, Nat.sub_eq_zero_of_le hlen,
        List.take_zero, List.append_nil] at heq
      rw [heq]
      exact take_isPre _ _
    have h4 := hnocc i (by omega)
    have h5 := isPrefixOf_iff.mpr hptake
    rw [h4] at h5
    exact Bool.noConfusion h5
  · push_neg at hlen
    have hd1 : (h0 ++ ['/']).drop i <+: (h0 ++ ['/']).drop i ++ (pat ++ t) :=
      ⟨pat ++ t, rfl⟩
    have hd2 : (h0 ++ ['/']).drop i <+: pat :=
      List.prefix_of_prefix_length_le hd1 hpre (le_of_lt hlen)
    have hmem : '/' ∈ (h0 ++ ['/']).drop i := by
      have hile : i ≤ h0.length := by
        have hlen2 : (h0 ++ ['/']).length = h0.length + 1 := by simp
        omega
      rw [List.drop_append_eq_append_drop, Nat.sub_eq_zero_of_le hile, List.drop_zero]
      exact List.mem_append_right _ (List.mem_cons_self '/' [])
    exact hslash (hd2.subset hmem)

theorem takeWhile_bucket (tok rest : List Char)
    (htok : tok.all (fun c => !(c == '/')) = true) :
    (tok ++ '/' :: rest).takeWhile (fun c => !(c == '/')) = tok := by
  induction tok with
  | nil => simp [List.takeWhile]
  | cons c t ih =>
    rw [List.all_cons, Bool.and_eq_true] at htok
    rw [List.cons_append]
    simp [List.takeWhile, htok.1, ih htok.2]

/-- Structure of the resolved reference for a stored path of the shape
`pfx ++ "/public/" ++ tok ++ "/" ++ name`, provided the bucket token does
not already occur in the URL header. -/
theorem toReference_on_bucket (pfx tokS name : String)
    (hsl : '/' ∉ tokS.data)
    (henc : encodeList tokS.data = tokS.data)
    (hni : containsSub tokS.data (urlHeader pfx) = false) :
    toReference tokS (pfx ++ ("/public/" ++ tokS ++ "/") ++ name)
      = ⟨tokS.data ++ '/' :: encodeList name.data⟩ := by
  have hdata : (pathToFileURLString (pfx ++ ("/public/" ++ tokS ++ "/") ++ name)).data
      = (urlHeader pfx) ++ (tokS.data ++ ('/' :: encodeList name.data)) := by
    simp only [pathToFileURLString, urlHeader, String.data_append, encodeList_append,
      encode_cons_slash, encode_pub, henc, List.append_assoc, List.singleton_append]
    simp [encode_pub2, List.append_assoc]
  have hhdr : urlHeader pfx
      = ("file://".data ++ encodeList pfx.data ++ "/public".data) ++ ['/'] := by
    simp [urlHeader, List.append_assoc]
  have hearly := no_early_occurrence tokS.data
    ("file://".data ++ encodeList pfx.data ++ "/public".data)
    ('/' :: encodeList name.data) hsl (by rw [← hhdr]; exact hni)
  have hfio : firstIndexOf
      ((urlHeader pfx) ++ (tokS.data ++ ('/' :: encodeList name.data))) tokS.data
      = some (urlHeader pfx).length := by
    rw [hhdr]
    exact firstIndexOf_main tokS.data _ _ hearly
  simp only [toReference, sliceFromFirst]
  rw [hdata, hfio]
  show (⟨((urlHeader pfx) ++ (tokS.data ++ ('/' :: encodeList name.data))).drop
      (urlHeader pfx).length⟩ : String) = ⟨tokS.data ++ '/' :: encodeList name.data⟩
  rw [List.drop_left]

/-- C7 (amended).  The Reference Resolver is a pure function of the stored
path: it converts the absolute storage path to a file-scheme URL and slices
from the first occurrence of the bucket token.  For every StoredFile whose
absolute path is `pfx ++ "/public/img/" ++ name` (resp. `document`) with a
plain single-segment file name, **provided the file-URL header — scheme,
percent-encoded directory prefix and `/public/` — does not itself contain
the bucket token**, the returned string has the bucket segment as its first
path component. -/
theorem c7_reference_first_component (pfx name : String)
    (hname : name.data.all (fun c => !(c == '/')) = true)
    (hdot : name ≠ ".") (hdotdot : name ≠ "..") :
    (containsSub "img".data (urlHeader pfx) = false →
      firstPathComponent (toReference "img" (pfx ++ "/public/img/" ++ name)) = "img") ∧
    (containsSub "document".data (urlHeader pfx) = false →
      firstPathComponent
          (toReference "document" (pfx ++ "/public/document/" ++ name))
        = "document") := by
  constructor
  · intro hni
    rw [show (pfx ++ "/public/img/" ++ name)
        = (pfx ++ ("/public/" ++ "img" ++ "/") ++ name) from by
      rw [show ("/public/" ++ "img" ++ "/" : String) = "/public/img/" from by decide]]
    rw [toReference_on_bucket pfx "img" name (by decide) (by decide) hni]
    simp only [firstPathComponent]
    rw [takeWhile_bucket "img".data _ (by decide)]
  · intro hni
    rw [show (pfx ++ "/public/document/" ++ name)
        = (pfx ++ ("/public/" ++ "document" ++ "/") ++ name) from by
      rw [show ("/public/" ++ "document" ++ "/" : String) = "/public/document/" from by
        decide]]
    rw [toReference_on_bucket pfx "document" name (by decide) (by decide) hni]
    simp only [firstPathComponent]
    rw [takeWhile_bucket "document".data _ (by decide)]

theorem c7_reference_first_component_witness :
    containsSub "img".data (urlHeader "/srv/app") = false ∧
    firstPathComponent
        (toReference "img" ("/srv/app" ++ "/public/img/" ++ "image-7-cat.png"))
      = "img" :=
  ⟨by decide,
   (c7_reference_first_component "/srv/app" "image-7-cat.png"
     (by decide) (by decide) (by decide)).1 (by decide)⟩

/-- C7 (counterexample to the claim as stated).  A StoredFile whose
absolute path begins with a directory containing the bucket token — here
`/imgroot` — yields a reference whose first path component is `imgroot`,
not the bucket segment `img`: `indexOf` latches onto the earlier
occurrence. -/
theorem c7_counterexample :
    toReference "img" "/imgroot/public/img/image-1700000000000-cat.png"
        = "imgroot/public/img/image-1700000000000-cat.png" ∧
    firstPathComponent
        (toReference "img" "/imgroot/public/img/image-1700000000000-cat.png")
      ≠ "img" :=
  ⟨by decide, by decide⟩

end OrphanUpload
